import Mathlib

/-!
Verification of the failure-classification engine of `jenkins-report.py`.

The Python program walks a Jenkins job's build history backwards in time,
decides which builds fall into the report window, classifies failing builds
against a catalog of known failure causes (`causes.yaml`) by scanning the
console log, and renders a table.

Shallow embedding conventions:
* Strings from the program (log text, patterns, literal search strings) are
  modelled as `List Char` (`Str`); signature names and result statuses stay
  `String`.
* `datetime` timestamps are modelled as abstract `Int` time values; the
  Python code converts the Jenkins millisecond timestamp to a `datetime`
  once in `get_build_info`, and afterwards only compares timestamps, so an
  ordered abstract time is faithful.
* The remote Jenkins server and the filesystem are modelled by an `Env`
  record of oracles: `console n = none` models
  `get_build_console_output` raising, `buildInfo n = none` models
  `get_build_info` raising (build not found), and `catalog = none` models
  `causes.yaml` being missing or unparsable (`open`/`yaml.safe_load`
  raising in `get_causes`).
* Python exceptions are modelled with `Except RunError`; an uncaught
  exception is an `Except.error` result.  Alongside the result, every
  modelled entry point returns the list of remote/file effects (`Event`)
  it performed, in order, so that claims about *when* fetches and the
  catalog load happen are statable.
* `re.search(pat, output, re.DOTALL)` is modelled for the fragment of
  regular expressions built from plain characters, backslash-escaped
  punctuation and `.`; a pattern outside this fragment (e.g. the invalid
  pattern `"("`) fails to parse, modelling `re.error`.  The `dotAll`
  flag of the matcher decides whether `.` matches `'\n'`; the program
  always passes `re.DOTALL`, i.e. `dotAll := true`.
-/

namespace JenkinsReport

/-- Log text, regex pattern source and literal search strings, as character
lists (Python `str` used as data). -/
abbrev Str := List Char

/-! ### Regular-expression fragment (`re.search` with `re.DOTALL`) -/

/-- One token of a compiled pattern: a literal character or `.`. -/
inductive RTok where
  | lit (c : Char)
  | dot
deriving DecidableEq

/-- Regex metacharacters outside the modelled fragment.  A bare occurrence
makes the pattern unparsable here; in Python several of these (e.g. an
unbalanced `(` or a leading `*`) raise `re.error` at compile time. -/
def specialChars : List Char :=
  ['(', ')', '[', ']', '{', '}', '*', '+', '?', '|', '^', '$']

/-- Compile a pattern source into tokens; `none` models `re.error` /
an unsupported pattern.  `\c` escapes a character to a literal, `.`
becomes the wildcard token. -/
def parseRegex : Str → Option (List RTok)
  | [] => some []
  | '\\' :: [] => none
  | '\\' :: c :: rest => (parseRegex rest).map (fun ts => RTok.lit c :: ts)
  | '.' :: rest => (parseRegex rest).map (fun ts => RTok.dot :: ts)
  | c :: rest =>
      if c ∈ specialChars then none
      else (parseRegex rest).map (fun ts => RTok.lit c :: ts)

/-- Whether one token matches one character.  With `dotAll = true`
(`re.DOTALL`, the mode the program uses) `.` matches every character,
newline included; without it `.` refuses `'\n'`. -/
def tokMatch (dotAll : Bool) : RTok → Char → Bool
  | RTok.lit c, d => c == d
  | RTok.dot, d => dotAll || d != '\n'

/-- Match the whole token list against an initial segment of the text. -/
def matchFrom (dotAll : Bool) : List RTok → Str → Bool
  | [], _ => true
  | _ :: _, [] => false
  | t :: ts, c :: cs => tokMatch dotAll t c && matchFrom dotAll ts cs

/-- `re.search`: the pattern matches starting at some position of the
text. -/
def reSearch (dotAll : Bool) (ts : List RTok) : Str → Bool
  | [] => matchFrom dotAll ts []
  | c :: cs => matchFrom dotAll ts (c :: cs) || reSearch dotAll ts cs

/-! ### Data model -/

/-- One entry of `causes.yaml`: the `re` key (list of regex pattern
sources), the `text` key (list of literal substrings) and the optional
`bug_data.url`.  A missing key in the YAML behaves exactly like an empty
list in the Python loops, so both are modelled as `[]`. -/
structure CauseData where
  re : List Str
  text : List Str
  bugUrl : Option String
deriving DecidableEq

/-- The loaded `causes.yaml`: an insertion-ordered mapping from cause name
to its data (Python dict, iterated with `.items()`). -/
abbrev Catalog := List (String × CauseData)

/-- The fields of the Jenkins build-info dict the program consumes:
`result` and the (converted) `timestamp`. -/
structure BuildInfo where
  result : String
  timestamp : Int
deriving DecidableEq

/-- One entry of the `build_statuses` dict built by
`display_builds_for_job`: build number, its build info and its cause
info. -/
structure RowEntry where
  number : Int
  info : BuildInfo
  cause : List String
deriving DecidableEq

/-- A remote call or file read performed by the program, recorded in
order. -/
inductive Event where
  | fetchJobInfo
  | fetchBuildInfo (n : Int)
  | fetchConsole (n : Int)
  | loadCatalog
deriving DecidableEq

/-- An uncaught Python exception terminating the run. -/
inductive RunError where
  | buildNotFound (n : Int)
  | logFetch (n : Int)
  | catalogMissing
  | badRegex (pat : Str)
  | outOfFuel
deriving DecidableEq

/-- The external world for one report run over one job: the catalog file
(`none` = missing/unparsable), the console text per build number
(`none` = the fetch raises), the build metadata per build number
(`none` = build not found) and the job's `lastCompletedBuild` number. -/
structure Env where
  catalog : Option Catalog
  console : Int → Option Str
  buildInfo : Int → Option BuildInfo
  lastCompleted : Option Int

/-! ### search_for_cause and get_causes -/

/-- The needle occurs at the very start of the haystack (character-exact,
hence case-sensitive). -/
def strHere : Str → Str → Bool
  | [], _ => true
  | _ :: _, [] => false
  | c :: cs, d :: ds => c == d && strHere cs ds

/-- Python's `needle in haystack`: the needle occurs verbatim at some
position of the haystack. -/
def strIn (needle : Str) : Str → Bool
  | [] => strHere needle []
  | d :: ds => strHere needle (d :: ds) || strIn needle ds

/-- The appends performed by the `text` loop of `search_for_cause`: one
copy of the cause name per literal found in the output (`search_str in
output`, Python's case-sensitive substring test). -/
def textHits (name : String) : List Str → Str → List String
  | [], _ => []
  | s :: rest, output =>
      if strIn s output then name :: textHits name rest output
      else textHits name rest output

/-- The appends performed by the `re` loop of `search_for_cause`: one copy
of the cause name per pattern whose `re.search(pat, output, re.DOTALL)`
matches; an unparsable pattern raises. -/
def reHits (name : String) : List Str → Str → Except RunError (List String)
  | [], _ => .ok []
  | p :: rest, output =>
      match parseRegex p with
      | none => .error (.badRegex p)
      | some ts =>
          match reHits name rest output with
          | .error e => .error e
          | .ok l => .ok (if reSearch true ts output then name :: l else l)

/-- All appends produced for one cause entry: regex hits then literal
hits. -/
def causeHits (name : String) (cd : CauseData) (output : Str) :
    Except RunError (List String) :=
  match reHits name cd.re output with
  | .error e => .error e
  | .ok l => .ok (l ++ textHits name cd.text output)

/-- The whole `failure_reasons` accumulation over the catalog, in catalog
order, before the final `list(set(...))`. -/
def collectReasons : Catalog → Str → Except RunError (List String)
  | [], _ => .ok []
  | (name, cd) :: rest, output =>
      match causeHits name cd output with
      | .error e => .error e
      | .ok l =>
          match collectReasons rest output with
          | .error e => .error e
          | .ok l2 => .ok (l ++ l2)

/-- `get_causes`: opens and parses `causes.yaml`.  It performs no
validation of the regex patterns; a missing or unparsable file raises. -/
def get_causes (env : Env) : Except RunError Catalog :=
  match env.catalog with
  | none => .error .catalogMissing
  | some cs => .ok cs

/-- `search_for_cause job_name number`: fetches the console output
(line 49), then loads the catalog (line 50), then scans every rule of
every cause and returns `list(set(failure_reasons))` — modelled as
`List.dedup`, which keeps one representative per name (the Python
`set` makes the order arbitrary; all claims treat the result as a
set).  The returned event list records the fetch and the catalog
read, in program order. -/
def search_for_cause (env : Env) (number : Int) :
    List Event × Except RunError (List String) :=
  match env.console number with
  | none => ([Event.fetchConsole number], .error (.logFetch number))
  | some output =>
      match env.catalog with
      | none => ([Event.fetchConsole number, Event.loadCatalog],
                 .error .catalogMissing)
      | some causes =>
          ([Event.fetchConsole number, Event.loadCatalog],
           (collectReasons causes output).map List.dedup)

/-! ### Build selection -/

/-- `get_build_info`: fetch the metadata of one build; `none` in the
environment models the `jenkins` library raising for a missing build. -/
def get_build_info (env : Env) (build_number : Int) : Option BuildInfo :=
  env.buildInfo build_number

/-- `is_build_included`: the inclusion test, verbatim from the source
(`include_build` starts `True`, is cleared when the timestamp is below
`min_start_time`, else when the result is SUCCESS and successes are not
wanted). -/
def is_build_included (build_info : BuildInfo) (min_start_time : Int)
    (include_success : Bool) : Bool :=
  if build_info.timestamp < min_start_time then false
  else if build_info.result == "SUCCESS" && !include_success then false
  else true

/-- `get_build_fail_cause`: a SUCCESS build gets an empty cause info
(the Python code returns `''`, an empty iterable) without any remote
call or catalog read; any other result delegates to
`search_for_cause`. -/
def get_build_fail_cause (env : Env) (build_info : BuildInfo)
    (build_number : Int) : List Event × Except RunError (List String) :=
  if build_info.result == "SUCCESS" then ([], .ok [])
  else search_for_cause env build_number

/-- The `while job_time > min_start_time` loop of
`display_builds_for_job`, walking build numbers downward.  `fuel` bounds
the number of iterations (the Python loop has no such bound; every
theorem supplies enough fuel, and running out is reported as its own
error, never confused with program behaviour).  Events are recorded in
program order; an exception discards the accumulated `build_statuses`
(the table is never printed) but the events already performed remain. -/
def walkLoop (env : Env) (min_start_time : Int) (include_success : Bool) :
    Nat → Int → Int → List Event × Except RunError (List RowEntry)
  | 0, _, _ => ([], .error .outOfFuel)
  | fuel + 1, build_number, job_time =>
      if min_start_time < job_time then
        match get_build_info env build_number with
        | none => ([Event.fetchBuildInfo build_number],
                   .error (.buildNotFound build_number))
        | some build_info =>
            if is_build_included build_info min_start_time include_success then
              let cr := get_build_fail_cause env build_info build_number
              match cr.2 with
              | .error e => (Event.fetchBuildInfo build_number :: cr.1, .error e)
              | .ok cause_info =>
                  let rest := walkLoop env min_start_time include_success fuel
                    (build_number - 1) build_info.timestamp
                  (Event.fetchBuildInfo build_number :: cr.1 ++ rest.1,
                   rest.2.map (fun rows =>
                     RowEntry.mk build_number build_info cause_info :: rows))
            else
              let rest := walkLoop env min_start_time include_success fuel
                (build_number - 1) build_info.timestamp
              (Event.fetchBuildInfo build_number :: rest.1, rest.2)
      else ([], .ok [])

/-- `display_builds_for_job job_name hours_ago include_success`: computes
`min_start_time = now - hours_ago`, reads the job's last completed build
number, returns immediately when there is none, and otherwise runs the
walk starting from it with `job_time` seeded to `now`. -/
def display_builds_for_job (env : Env) (now : Int) (hours_ago : Int)
    (include_success : Bool) (fuel : Nat) :
    List Event × Except RunError (List RowEntry) :=
  let min_start_time := now - hours_ago
  match env.lastCompleted with
  | none => ([Event.fetchJobInfo], .ok [])
  | some build_number =>
      let r := walkLoop env min_start_time include_success fuel build_number now
      (Event.fetchJobInfo :: r.1, r.2)

/-! ### Observation helpers -/

/-- The build numbers whose metadata the run fetched, in fetch order:
the builds the walk visited. -/
def fetchedBuilds : List Event → List Int
  | [] => []
  | Event.fetchBuildInfo n :: rest => n :: fetchedBuilds rest
  | _ :: rest => fetchedBuilds rest

/-- The classification outcome of `search_for_cause`, with an exception
read as the empty outcome (used only to state concrete witnesses). -/
def causeResult (env : Env) (n : Int) : List String :=
  match (search_for_cause env n).2 with
  | .ok l => l
  | .error _ => []

/-- Catalog sanity: every regex pattern of every cause compiles. -/
def catalogOKb (cs : Catalog) : Bool :=
  cs.all (fun nc => nc.2.re.all (fun p => (parseRegex p).isSome))

/-- A cause's regex rules fire on this output: some pattern compiles and
`re.search` (DOTALL) succeeds. -/
def ReMatches (cd : CauseData) (output : Str) : Prop :=
  ∃ p, p ∈ cd.re ∧ ∃ ts, parseRegex p = some ts ∧ reSearch true ts output = true

/-- A cause's literal rules fire on this output: some literal occurs
verbatim. -/
def TextMatches (cd : CauseData) (output : Str) : Prop :=
  ∃ t, t ∈ cd.text ∧ strIn t output = true

/-! ### Lemmas about the classifier -/

lemma mem_textHits {name x : String} {ts : List Str} {output : Str} :
    x ∈ textHits name ts output ↔
      x = name ∧ ∃ t, t ∈ ts ∧ strIn t output = true := by
  induction ts with
  | nil => simp [textHits]
  | cons s rest ih =>
      by_cases h : strIn s output = true
      · simp only [textHits, if_pos h, List.mem_cons, ih]
        aesop
      · simp only [textHits, if_neg h, List.mem_cons, ih]
        aesop

lemma reHits_ok_char {name x : String} {ps : List Str} {output : Str}
    {l : List String} (h : reHits name ps output = .ok l) :
    x ∈ l ↔ x = name ∧ ∃ p, p ∈ ps ∧
      ∃ ts, parseRegex p = some ts ∧ reSearch true ts output = true := by
  induction ps generalizing l with
  | nil =>
      simp only [reHits, Except.ok.injEq] at h
      subst h; simp
  | cons p rest ih =>
      simp only [reHits] at h
      cases hp : parseRegex p with
      | none => rw [hp] at h; exact absurd h (by simp)
      | some ts =>
          rw [hp] at h
          cases hr : reHits name rest output with
          | error e => rw [hr] at h; exact absurd h (by simp)
          | ok l' =>
              rw [hr] at h
              simp only [Except.ok.injEq] at h
              subst h
              by_cases hs : reSearch true ts output = true
              · simp only [if_pos hs, List.mem_cons, ih hr]
                constructor
                · rintro (rfl | ⟨rfl, q, hq, ts', hts', hm⟩)
                  · exact ⟨rfl, p, by simp, ts, hp, hs⟩
                  · exact ⟨rfl, q, by simp [hq], ts', hts', hm⟩
                · rintro ⟨rfl, q, hq, ts', hts', hm⟩
                  rcases hq with rfl | hq
                  · exact Or.inl rfl
                  · exact Or.inr ⟨rfl, q, hq, ts', hts', hm⟩
              · simp only [if_neg hs, List.mem_cons, ih hr]
                constructor
                · rintro ⟨rfl, q, hq, ts', hts', hm⟩
                  exact ⟨rfl, q, by simp [hq], ts', hts', hm⟩
                · rintro ⟨rfl, q, hq, ts', hts', hm⟩
                  rcases hq with rfl | hq
                  · rw [hp] at hts'
                    injection hts' with h
                    subst h
                    exact absurd hm hs
                  · exact ⟨rfl, q, hq, ts', hts', hm⟩

lemma reHits_ok_of (name : String) (ps : List Str) (output : Str)
    (h : ∀ p, p ∈ ps → (parseRegex p).isSome) :
    ∃ l, reHits name ps output = .ok l := by
  induction ps with
  | nil => exact ⟨[], rfl⟩
  | cons p rest ih =>
      obtain ⟨ts, hts⟩ := Option.isSome_iff_exists.mp (h p (by simp))
      obtain ⟨l, hl⟩ := ih (fun q hq => h q (by simp [hq]))
      refine ⟨if reSearch true ts output then name :: l else l, ?_⟩
      simp [reHits, hts, hl]

lemma reHits_error_inv {name : String} {ps : List Str} {output : Str}
    {e : RunError} (h : reHits name ps output = .error e) :
    ∃ q, q ∈ ps ∧ parseRegex q = none ∧ e = .badRegex q := by
  induction ps generalizing e with
  | nil => exact absurd h (by simp [reHits])
  | cons p rest ih =>
      simp only [reHits] at h
      cases hp : parseRegex p with
      | none =>
          rw [hp] at h
          simp only [Except.error.injEq] at h
          exact ⟨p, by simp, hp, h.symm⟩
      | some ts =>
          rw [hp] at h
          cases hr : reHits name rest output with
          | error e' =>
              rw [hr] at h
              simp only [Except.error.injEq] at h
              obtain ⟨q, hq, hqn, rfl⟩ := ih hr
              exact ⟨q, by simp [hq], hqn, h.symm⟩
          | ok l => rw [hr] at h; exact absurd h (by simp)

lemma reHits_error_of (name : String) (ps : List Str) (output : Str)
    (q : Str) (hq : q ∈ ps) (hbad : parseRegex q = none) :
    ∃ q', parseRegex q' = none ∧
      reHits name ps output = .error (.badRegex q') := by
  induction ps with
  | nil => cases hq
  | cons p rest ih =>
      by_cases hp : ∃ ts, parseRegex p = some ts
      · obtain ⟨ts, hts⟩ := hp
        have hq' : q ∈ rest := by
          rcases List.mem_cons.mp hq with rfl | h
          · rw [hbad] at hts; cases hts
          · exact h
        obtain ⟨q', hq'n, hr⟩ := ih hq'
        exact ⟨q', hq'n, by simp [reHits, hts, hr]⟩
      · have hpn : parseRegex p = none := by
          cases h : parseRegex p with
          | none => rfl
          | some ts => exact absurd ⟨ts, h⟩ hp
        exact ⟨p, hpn, by simp [reHits, hpn]⟩

lemma causeHits_ok_char {name x : String} {cd : CauseData} {output : Str}
    {l : List String} (h : causeHits name cd output = .ok l) :
    x ∈ l ↔ x = name ∧ (ReMatches cd output ∨ TextMatches cd output) := by
  simp only [causeHits] at h
  cases hr : reHits name cd.re output with
  | error e => rw [hr] at h; exact absurd h (by simp)
  | ok l1 =>
      rw [hr] at h
      simp only [Except.ok.injEq] at h
      subst h
      simp only [List.mem_append, reHits_ok_char hr, mem_textHits,
        ReMatches, TextMatches]
      aesop

lemma causeHits_ok_of (name : String) (cd : CauseData) (output : Str)
    (h : ∀ p, p ∈ cd.re → (parseRegex p).isSome) :
    ∃ l, causeHits name cd output = .ok l := by
  obtain ⟨l, hl⟩ := reHits_ok_of name cd.re output h
  exact ⟨l ++ textHits name cd.text output, by simp [causeHits, hl]⟩

lemma collect_char {cs : Catalog} {output : Str} {l : List String}
    (h : collectReasons cs output = .ok l) {x : String} :
    x ∈ l ↔ ∃ cd, (x, cd) ∈ cs ∧
      (ReMatches cd output ∨ TextMatches cd output) := by
  induction cs generalizing l with
  | nil =>
      simp only [collectReasons, Except.ok.injEq] at h
      subst h; simp
  | cons nc rest ih =>
      obtain ⟨name, cd⟩ := nc
      simp only [collectReasons] at h
      cases hc : causeHits name cd output with
      | error e => rw [hc] at h; exact absurd h (by simp)
      | ok l1 =>
          rw [hc] at h
          cases hr : collectReasons rest output with
          | error e => rw [hr] at h; exact absurd h (by simp)
          | ok l2 =>
              rw [hr] at h
              simp only [Except.ok.injEq] at h
              subst h
              simp only [List.mem_append, causeHits_ok_char hc, ih hr,
                List.mem_cons, Prod.mk.injEq]
              constructor
              · rintro (⟨rfl, hm⟩ | ⟨cd', hcd', hm⟩)
                · exact ⟨cd, Or.inl ⟨rfl, rfl⟩, hm⟩
                · exact ⟨cd', Or.inr hcd', hm⟩
              · rintro ⟨cd', (⟨rfl, rfl⟩ | hcd'), hm⟩
                · exact Or.inl ⟨rfl, hm⟩
                · exact Or.inr ⟨cd', hcd', hm⟩

lemma catalogOKb_parse {cs : Catalog} (h : catalogOKb cs = true)
    (name : String) (cd : CauseData) (hmem : (name, cd) ∈ cs) :
    ∀ p, p ∈ cd.re → (parseRegex p).isSome := by
  intro p hp
  have h1 := (List.all_eq_true.mp h) (name, cd) hmem
  exact (List.all_eq_true.mp h1) p hp

lemma collect_ok_of {cs : Catalog} (output : Str)
    (h : catalogOKb cs = true) :
    ∃ l, collectReasons cs output = .ok l := by
  induction cs with
  | nil => exact ⟨[], rfl⟩
  | cons nc rest ih =>
      obtain ⟨name, cd⟩ := nc
      have hcd : ∀ p, p ∈ cd.re → (parseRegex p).isSome :=
        catalogOKb_parse h name cd (by simp)
      have hrest : catalogOKb rest = true := by
        simp only [catalogOKb, List.all_cons, Bool.and_eq_true] at h
        exact h.2
      obtain ⟨l1, hl1⟩ := causeHits_ok_of name cd output hcd
      obtain ⟨l2, hl2⟩ := ih hrest
      exact ⟨l1 ++ l2, by simp [collectReasons, hl1, hl2]⟩

lemma collect_error_of {cs : Catalog} (output : Str) {name : String}
    {cd : CauseData} {q : Str} (hmem : (name, cd) ∈ cs) (hq : q ∈ cd.re)
    (hbad : parseRegex q = none) :
    ∃ q', parseRegex q' = none ∧
      collectReasons cs output = .error (.badRegex q') := by
  induction cs with
  | nil => cases hmem
  | cons nc rest ih =>
      obtain ⟨name', cd'⟩ := nc
      rcases List.mem_cons.mp hmem with heq | hmem'
      · obtain ⟨rfl, rfl⟩ := Prod.mk.injEq .. ▸ heq
        obtain ⟨q', hq'n, hr⟩ := reHits_error_of name cd.re output q hq hbad
        exact ⟨q', hq'n, by simp [collectReasons, causeHits, hr]⟩
      · cases hc : causeHits name' cd' output with
        | error e =>
            simp only [causeHits] at hc
            cases hr : reHits name' cd'.re output with
            | error e' =>
                obtain ⟨q', _, hq'n, rfl⟩ := reHits_error_inv hr
                rw [hr] at hc
                simp only [Except.error.injEq] at hc
                exact ⟨q', hq'n,
                  by simp [collectReasons, causeHits, hr, ← hc]⟩
            | ok l => rw [hr] at hc; exact absurd hc (by simp)
        | ok l1 =>
            obtain ⟨q', hq'n, hr⟩ := ih hmem'
            exact ⟨q', hq'n, by simp [collectReasons, hc, hr]⟩

/-! ### Lemmas about the walk -/

lemma fetchedBuilds_append (a b : List Event) :
    fetchedBuilds (a ++ b) = fetchedBuilds a ++ fetchedBuilds b := by
  induction a with
  | nil => rfl
  | cons e rest ih => cases e <;> simp [fetchedBuilds, ih]

lemma fetchedBuilds_search (env : Env) (n : Int) :
    fetchedBuilds (search_for_cause env n).1 = [] := by
  unfold search_for_cause
  cases env.console n with
  | none => rfl
  | some output =>
      cases env.catalog with
      | none => rfl
      | some cs => rfl

lemma gbfc_ok (env : Env) (bi : BuildInfo) (n : Int) (cs : Catalog)
    (hcat : env.catalog = some cs) (hok : catalogOKb cs = true)
    (hcons : (env.console n).isSome) :
    ∃ ev c, get_build_fail_cause env bi n = (ev, .ok c) ∧
      fetchedBuilds ev = [] := by
  unfold get_build_fail_cause
  by_cases hres : (bi.result == "SUCCESS") = true
  · exact ⟨[], [], by simp [hres], rfl⟩
  · obtain ⟨out, hout⟩ := Option.isSome_iff_exists.mp hcons
    obtain ⟨l, hl⟩ := collect_ok_of out hok
    refine ⟨[Event.fetchConsole n, Event.loadCatalog], l.dedup, ?_, rfl⟩
    simp only [Bool.not_eq_true] at hres
    simp [hres, search_for_cause, hout, hcat, hl, Except.map]

lemma walk_stop (env : Env) (T : Int) (inc : Bool) (fuel : Nat)
    (bn jt : Int) (h : jt ≤ T) :
    walkLoop env T inc (fuel + 1) bn jt = ([], .ok []) := by
  simp [walkLoop, not_lt.mpr h]

lemma walk_step (env : Env) (T jt bn : Int) (inc : Bool) (bi : BuildInfo)
    (fuel : Nat) (cs : Catalog)
    (hcat : env.catalog = some cs) (hok : catalogOKb cs = true)
    (hcons : ∀ n, (env.console n).isSome)
    (hjt : T < jt) (hbi : env.buildInfo bn = some bi) :
    fetchedBuilds (walkLoop env T inc (fuel + 1) bn jt).1
        = bn :: fetchedBuilds (walkLoop env T inc fuel (bn - 1) bi.timestamp).1 ∧
    (is_build_included bi T inc = true →
      ∃ c, (walkLoop env T inc (fuel + 1) bn jt).2
        = (walkLoop env T inc fuel (bn - 1) bi.timestamp).2.map
            (fun rows => RowEntry.mk bn bi c :: rows)) ∧
    (is_build_included bi T inc = false →
      (walkLoop env T inc (fuel + 1) bn jt).2
        = (walkLoop env T inc fuel (bn - 1) bi.timestamp).2) := by
  obtain ⟨ev, c, hg, hev⟩ := gbfc_ok env bi bn cs hcat hok (hcons bn)
  by_cases hI : is_build_included bi T inc = true
  · constructor
    · simp only [walkLoop, if_pos hjt, get_build_info, hbi, if_pos hI, hg]
      simp [fetchedBuilds, fetchedBuilds_append, hev]
    · refine ⟨fun _ => ⟨c, ?_⟩, fun hF => by rw [hI] at hF; cases hF⟩
      simp only [walkLoop, if_pos hjt, get_build_info, hbi, if_pos hI, hg]
  · have hF : is_build_included bi T inc = false := by
      simpa using hI
    refine ⟨?_, ?_, ?_⟩
    · simp only [walkLoop, if_pos hjt, get_build_info, hbi, if_neg hI]
      simp [fetchedBuilds]
    · intro hT
      rw [hF] at hT
      cases hT
    · intro h2
      simp only [walkLoop, if_pos hjt, get_build_info, hbi, if_neg hI]

lemma range_map_shift (bn : Int) (j : Nat) :
    (List.range (j + 1)).map (fun i : Nat => bn - (i : Int))
      = bn :: (List.range j).map (fun i : Nat => (bn - 1) - (i : Int)) := by
  rw [List.range_succ_eq_map]
  simp only [List.map_cons, Nat.cast_zero, sub_zero, List.map_map]
  congr 1
  apply List.map_congr_left
  intro a _
  simp only [Function.comp_apply, Nat.cast_succ]
  ring

lemma int_cast_shift (bn : Int) (i : Nat) :
    (bn - 1) - (i : Int) = bn - ((i + 1 : Nat) : Int) := by
  push_cast
  ring

lemma walk_window (env : Env) (T : Int) (inc : Bool) (cs : Catalog)
    (hcat : env.catalog = some cs) (hok : catalogOKb cs = true)
    (hcons : ∀ n, (env.console n).isSome) :
    ∀ (j : Nat) (bn jt : Int) (fuel : Nat) (info : Nat → BuildInfo),
      T < jt →
      (∀ i : Nat, i ≤ j → env.buildInfo (bn - (i : Int)) = some (info i)) →
      (∀ i : Nat, i < j → T < (info i).timestamp) →
      (info j).timestamp ≤ T →
      j + 2 ≤ fuel →
      fetchedBuilds (walkLoop env T inc fuel bn jt).1
          = (List.range (j + 1)).map (fun i : Nat => bn - (i : Int)) ∧
      ∃ rows, (walkLoop env T inc fuel bn jt).2 = .ok rows ∧
        (∀ r, r ∈ rows → ∃ i : Nat, i ≤ j ∧ r.number = bn - (i : Int) ∧
            is_build_included (info i) T inc = true) ∧
        (is_build_included (info j) T inc = true →
            ∃ r, r ∈ rows ∧ r.number = bn - (j : Int)) := by
  intro j
  induction j with
  | zero =>
      intro bn jt fuel info hjt hinfo hts hbd hfuel
      obtain ⟨f, rfl⟩ : ∃ f, fuel = f + 1 + 1 := ⟨fuel - 2, by omega⟩
      have hbi : env.buildInfo bn = some (info 0) := by
        simpa using hinfo 0 (le_refl 0)
      have hstep := walk_step env T jt bn inc (info 0) (f + 1) cs hcat hok
        hcons hjt hbi
      have hstop := walk_stop env T inc f (bn - 1) (info 0).timestamp hbd
      refine ⟨?_, ?_⟩
      · rw [hstep.1, hstop]
        simp [fetchedBuilds, List.range_succ]
      · by_cases hI : is_build_included (info 0) T inc = true
        · obtain ⟨c, heq⟩ := hstep.2.1 hI
          rw [hstop] at heq
          refine ⟨[RowEntry.mk bn (info 0) c], by simpa [Except.map] using heq,
            ?_, ?_⟩
          · rintro r hr
            rcases List.mem_singleton.mp hr with rfl
            exact ⟨0, le_refl 0, by simp, hI⟩
          · intro _
            exact ⟨RowEntry.mk bn (info 0) c, by simp, by simp⟩
        · have hF : is_build_included (info 0) T inc = false := by
            simpa using hI
          have heq := hstep.2.2 hF
          rw [hstop] at heq
          refine ⟨[], by simpa using heq, ?_, ?_⟩
          · rintro r hr
            cases hr
          · intro hT
            rw [hF] at hT
            cases hT
  | succ j ih =>
      intro bn jt fuel info hjt hinfo hts hbd hfuel
      obtain ⟨f, rfl⟩ : ∃ f, fuel = f + 1 := ⟨fuel - 1, by omega⟩
      have hbi : env.buildInfo bn = some (info 0) := by
        simpa using hinfo 0 (by omega)
      have hts0 : T < (info 0).timestamp := hts 0 (by omega)
      have hstep := walk_step env T jt bn inc (info 0) f cs hcat hok
        hcons hjt hbi
      have hinfo2 : ∀ i : Nat, i ≤ j →
          env.buildInfo ((bn - 1) - (i : Int)) = some (info (i + 1)) := by
        intro i hi
        rw [int_cast_shift]
        exact hinfo (i + 1) (by omega)
      have hts2 : ∀ i : Nat, i < j → T < (info (i + 1)).timestamp :=
        fun i hi => hts (i + 1) (by omega)
      have ihr := ih (bn - 1) (info 0).timestamp f (fun i => info (i + 1))
        hts0 hinfo2 hts2 hbd (by omega)
      refine ⟨?_, ?_⟩
      · rw [hstep.1, ihr.1, ← range_map_shift]
      · obtain ⟨rows, hrows, hall, hbdy⟩ := ihr.2
        by_cases hI : is_build_included (info 0) T inc = true
        · obtain ⟨c, heq⟩ := hstep.2.1 hI
          rw [hrows] at heq
          refine ⟨RowEntry.mk bn (info 0) c :: rows,
            by simpa [Except.map] using heq, ?_, ?_⟩
          · rintro r hr
            rcases List.mem_cons.mp hr with rfl | hr
            · exact ⟨0, by omega, by simp, hI⟩
            · obtain ⟨i, hi, hnum, hinc⟩ := hall r hr
              exact ⟨i + 1, by omega, by rw [hnum, int_cast_shift], hinc⟩
          · intro hT
            obtain ⟨r, hr, hnum⟩ := hbdy hT
            exact ⟨r, List.mem_cons_of_mem _ hr, by rw [hnum, int_cast_shift]⟩
        · have hF : is_build_included (info 0) T inc = false := by
            simpa using hI
          have heq := hstep.2.2 hF
          rw [hrows] at heq
          refine ⟨rows, by simpa using heq, ?_, ?_⟩
          · rintro r hr
            obtain ⟨i, hi, hnum, hinc⟩ := hall r hr
            exact ⟨i + 1, by omega, by rw [hnum, int_cast_shift], hinc⟩
          · intro hT
            obtain ⟨r, hr, hnum⟩ := hbdy hT
            exact ⟨r, hr, by rw [hnum, int_cast_shift]⟩

lemma walk_missing (env : Env) (T : Int) (inc : Bool) (cs : Catalog)
    (hcat : env.catalog = some cs) (hok : catalogOKb cs = true)
    (hcons : ∀ n, (env.console n).isSome) :
    ∀ (k : Nat) (bn jt : Int) (fuel : Nat) (info : Nat → BuildInfo),
      T < jt →
      (∀ i : Nat, i < k → env.buildInfo (bn - (i : Int)) = some (info i)) →
      (∀ i : Nat, i < k → T < (info i).timestamp) →
      env.buildInfo (bn - (k : Int)) = none →
      k + 1 ≤ fuel →
      (walkLoop env T inc fuel bn jt).2
          = .error (.buildNotFound (bn - (k : Int))) ∧
      fetchedBuilds (walkLoop env T inc fuel bn jt).1
          = (List.range (k + 1)).map (fun i : Nat => bn - (i : Int)) := by
  intro k
  induction k with
  | zero =>
      intro bn jt fuel info hjt hinfo hts hmiss hfuel
      obtain ⟨f, rfl⟩ : ∃ f, fuel = f + 1 := ⟨fuel - 1, by omega⟩
      have hm : env.buildInfo bn = none := by simpa using hmiss
      constructor
      · simp [walkLoop, hjt, get_build_info, hm]
      · simp [walkLoop, hjt, get_build_info, hm, fetchedBuilds,
          List.range_succ]
  | succ k ih =>
      intro bn jt fuel info hjt hinfo hts hmiss hfuel
      obtain ⟨f, rfl⟩ : ∃ f, fuel = f + 1 := ⟨fuel - 1, by omega⟩
      have hbi : env.buildInfo bn = some (info 0) := by
        simpa using hinfo 0 (by omega)
      have hts0 : T < (info 0).timestamp := hts 0 (by omega)
      have hstep := walk_step env T jt bn inc (info 0) f cs hcat hok
        hcons hjt hbi
      have hinfo2 : ∀ i : Nat, i < k →
          env.buildInfo ((bn - 1) - (i : Int)) = some (info (i + 1)) := by
        intro i hi
        rw [int_cast_shift]
        exact hinfo (i + 1) (by omega)
      have hts2 : ∀ i : Nat, i < k → T < (info (i + 1)).timestamp :=
        fun i hi => hts (i + 1) (by omega)
      have hmiss2 : env.buildInfo ((bn - 1) - (k : Int)) = none := by
        rw [int_cast_shift]
        exact hmiss
      have ihr := ih (bn - 1) (info 0).timestamp f (fun i => info (i + 1))
        hts0 hinfo2 hts2 hmiss2 (by omega)
      constructor
      · by_cases hI : is_build_included (info 0) T inc = true
        · obtain ⟨c, heq⟩ := hstep.2.1 hI
          rw [heq, ihr.1, int_cast_shift]
          simp [Except.map]
        · have hF : is_build_included (info 0) T inc = false := by
            simpa using hI
          rw [hstep.2.2 hF, ihr.1, int_cast_shift]
      · rw [hstep.1, ihr.2, ← range_map_shift]

/-! ### Claim C2 -/

/-- C2: for every build, inclusion in the report is decided by
`included = (timestamp >= cutoffTimestamp) AND (result == SUCCESS implies
includeSuccess == true)`.  In particular every non-success build inside the
window is included regardless of the flag, and with
`include_success = false` every SUCCESS build inside the window is
excluded. -/
theorem C2_is_build_included_characterization (build_info : BuildInfo)
    (min_start_time : Int) (include_success : Bool) :
    is_build_included build_info min_start_time include_success = true ↔
      (min_start_time ≤ build_info.timestamp ∧
        (build_info.result = "SUCCESS" → include_success = true)) := by
  unfold is_build_included
  by_cases h1 : build_info.timestamp < min_start_time
  · simp [h1, not_le.mpr h1]
  · rw [if_neg h1]
    by_cases h2 : build_info.result = "SUCCESS"
    · cases hinc : include_success <;> simp [h2, not_lt.mp h1]
    · have hbeq : (build_info.result == "SUCCESS") = false :=
        beq_eq_false_iff_ne.mpr h2
      simp [hbeq, h2, not_lt.mp h1]

/-! ### Claim C10 -/

/-- C10: for every build whose result is SUCCESS, `get_build_fail_cause`
returns an empty classification (`''` in Python, the empty collection
here) and performs no remote call at all — no console fetch and no
catalog read (the returned event list is empty); only non-SUCCESS builds
reach `search_for_cause`. -/
theorem C10_success_skips_fetch_and_catalog (env : Env)
    (build_info : BuildInfo) (build_number : Int)
    (h : build_info.result = "SUCCESS") :
    get_build_fail_cause env build_info build_number = ([], .ok []) := by
  simp [get_build_fail_cause, h]

/-- An environment in which every remote call and the catalog read would
fail: anything the program does against it is visible as an error. -/
def envBroken : Env := ⟨none, fun _ => none, fun _ => none, none⟩

theorem C10_witness :
    get_build_fail_cause envBroken ⟨"SUCCESS", 0⟩ 5 = ([], .ok []) :=
  C10_success_skips_fetch_and_catalog envBroken ⟨"SUCCESS", 0⟩ 5 rfl

/-! ### Claim C4 -/

/-- C4: whenever `search_for_cause` returns normally, its result has no
duplicate cause names (the Python `list(set(...))`) and every returned
name is a key of the loaded catalog — even when several regex and
literal rules of the same cause match. -/
theorem C4_classification_nodup_subset (env : Env) (n : Int) (out : Str)
    (cs : Catalog) (ev : List Event) (l : List String)
    (hcons : env.console n = some out) (hcat : env.catalog = some cs)
    (hrun : search_for_cause env n = (ev, .ok l)) :
    l.Nodup ∧ ∀ x, x ∈ l → x ∈ cs.map Prod.fst := by
  have hres := congrArg Prod.snd hrun
  simp only [search_for_cause, hcons, hcat] at hres
  cases hc : collectReasons cs out with
  | error e =>
      rw [hc] at hres
      simp [Except.map] at hres
  | ok l0 =>
      rw [hc] at hres
      simp only [Except.map, Except.ok.injEq] at hres
      subst hres
      refine ⟨List.nodup_dedup l0, ?_⟩
      intro x hx
      rw [List.mem_dedup] at hx
      obtain ⟨cd, hcd, _⟩ := (collect_char hc).mp hx
      exact List.mem_map.mpr ⟨(x, cd), hcd, rfl⟩

/-- A catalog where the cause "a" has a regex rule and a literal rule
that both match the log, so its name is appended twice before the final
dedup. -/
def csC4 : Catalog :=
  [("a", ⟨["mem".toList], ["mem".toList], none⟩),
   ("b", ⟨[], ["nope".toList], none⟩)]

def envC4 : Env := ⟨some csC4, fun _ => some "a mem b".toList, fun _ => none, none⟩

theorem C4_witness :
    (["a"] : List String).Nodup ∧
      ∀ x, x ∈ (["a"] : List String) → x ∈ csC4.map Prod.fst :=
  C4_classification_nodup_subset envC4 1 "a mem b".toList csC4
    [Event.fetchConsole 1, Event.loadCatalog] ["a"] rfl rfl rfl

/-! ### Claim C5 -/

/-- C5: regex rules are tested against the full log text with
dot-matches-newline semantics (`re.DOTALL`): for every catalog cause with
a regex rule containing `.`, if the pattern matches the log under the
DOTALL matcher (so `.` may consume a newline and the matched span may
cross line boundaries), the cause name is recorded. -/
theorem C5_dotall_multiline_match (env : Env) (n : Int) (out : Str)
    (cs : Catalog) (nm : String) (cd : CauseData) (p : Str)
    (ts : List RTok)
    (hcons : env.console n = some out) (hcat : env.catalog = some cs)
    (hok : catalogOKb cs = true)
    (hmem : (nm, cd) ∈ cs) (hp : p ∈ cd.re)
    (hparse : parseRegex p = some ts) (hdot : RTok.dot ∈ ts)
    (hmatch : reSearch true ts out = true) :
    ∃ ev l, search_for_cause env n = (ev, .ok l) ∧ nm ∈ l := by
  obtain ⟨l0, hl0⟩ := collect_ok_of out hok
  refine ⟨[Event.fetchConsole n, Event.loadCatalog], l0.dedup, ?_, ?_⟩
  · simp [search_for_cause, hcons, hcat, hl0, Except.map]
  · rw [List.mem_dedup]
    exact (collect_char hl0).mpr ⟨cd, hmem, Or.inl ⟨p, hp, ts, hparse, hmatch⟩⟩

/-- The cause "oops" matches via the pattern `fatal.error`, whose dot has
to consume the newline between `fatal` and `error` in the log below. -/
def cdC5 : CauseData := ⟨["fatal.error".toList], [], none⟩

def csC5 : Catalog := [("oops", cdC5)]

def outC5 : Str := "xx fatal\nerror yy".toList

def envC5 : Env := ⟨some csC5, fun _ => some outC5, fun _ => none, none⟩

def toksC5 : List RTok :=
  [RTok.lit 'f', RTok.lit 'a', RTok.lit 't', RTok.lit 'a', RTok.lit 'l',
   RTok.dot, RTok.lit 'e', RTok.lit 'r', RTok.lit 'r', RTok.lit 'o',
   RTok.lit 'r']

theorem C5_witness :
    ∃ ev l, search_for_cause envC5 1 = (ev, .ok l) ∧ "oops" ∈ l :=
  C5_dotall_multiline_match envC5 1 outC5 csC5 "oops" cdC5
    "fatal.error".toList toksC5 rfl rfl (by decide) (by decide) (by decide)
    (by decide) (by decide) (by decide)

/-! ### Claim C6 -/

/-- C6: literal rules are case-sensitive exact substring tests.  First
part: a cause with a literal occurring verbatim in the log is always in
the result.  Second part: a cause none of whose rules match — in
particular one whose literal occurs only with differing case — is never
in the result. -/
theorem C6_literal_case_sensitive (env : Env) (n : Int) (out : Str)
    (cs : Catalog) (ev : List Event) (l : List String)
    (hcons : env.console n = some out) (hcat : env.catalog = some cs)
    (hrun : search_for_cause env n = (ev, .ok l)) :
    (∀ nm cd t, (nm, cd) ∈ cs → t ∈ cd.text → strIn t out = true →
        nm ∈ l) ∧
    (∀ nm, (∀ cd, (nm, cd) ∈ cs →
        (∀ p ts, p ∈ cd.re → parseRegex p = some ts →
            reSearch true ts out = false) ∧
        (∀ t, t ∈ cd.text → strIn t out = false)) → nm ∉ l) := by
  have hres := congrArg Prod.snd hrun
  simp only [search_for_cause, hcons, hcat] at hres
  cases hc : collectReasons cs out with
  | error e =>
      rw [hc] at hres
      simp [Except.map] at hres
  | ok l0 =>
      rw [hc] at hres
      simp only [Except.map, Except.ok.injEq] at hres
      subst hres
      constructor
      · intro nm cd t hmem ht hin
        rw [List.mem_dedup]
        exact (collect_char hc).mpr ⟨cd, hmem, Or.inr ⟨t, ht, hin⟩⟩
      · intro nm hnone hmem
        rw [List.mem_dedup] at hmem
        obtain ⟨cd, hcd, hm⟩ := (collect_char hc).mp hmem
        rcases hm with ⟨p, hp, ts, hts, hsr⟩ | ⟨t, ht, hin⟩
        · have hfalse := (hnone cd hcd).1 p ts hp hts
          rw [hfalse] at hsr
          cases hsr
        · have hfalse := (hnone cd hcd).2 t ht
          rw [hfalse] at hin
          cases hin

/-- The cause "oom" has exactly one rule: the literal
`OutOfMemoryError`.  Build 1's log contains it verbatim; build 2's log
contains it only in upper case. -/
def cdC6 : CauseData := ⟨[], ["OutOfMemoryError".toList], none⟩

def csC6 : Catalog := [("oom", cdC6)]

def envC6 : Env :=
  ⟨some csC6,
   fun n => if n = 1 then some "a OutOfMemoryError b".toList
            else some "a OUTOFMEMORYERROR b".toList,
   fun _ => none, none⟩

theorem C6_witness :
    strIn "OutOfMemoryError".toList "a OutOfMemoryError b".toList = true ∧
    "oom" ∈ causeResult envC6 1 ∧
    strIn "OutOfMemoryError".toList "a OUTOFMEMORYERROR b".toList = false ∧
    "oom" ∉ causeResult envC6 2 := by
  refine ⟨by decide, ?_, by decide, ?_⟩
  · exact (C6_literal_case_sensitive envC6 1 "a OutOfMemoryError b".toList
      csC6 [Event.fetchConsole 1, Event.loadCatalog] ["oom"] rfl rfl rfl).1
      "oom" cdC6 "OutOfMemoryError".toList (by decide) (by decide) (by decide)
  · refine (C6_literal_case_sensitive envC6 2 "a OUTOFMEMORYERROR b".toList
      csC6 [Event.fetchConsole 2, Event.loadCatalog] [] rfl rfl rfl).2
      "oom" ?_
    intro cd hcd
    rcases List.mem_singleton.mp hcd with h
    injection h with h1 h2
    subst h2
    constructor
    · intro p ts hp
      cases hp
    · intro t ht
      rcases List.mem_singleton.mp ht with rfl
      decide

/-! ### Claim C1 -/

/-- History for the C1 counterexample: build 2 has timestamp exactly equal
to the cutoff (10), build 1 is present with timestamp 5 below the
cutoff. -/
def envC1cex : Env :=
  ⟨some [], fun _ => some [],
   fun n => if n = 2 then some ⟨"FAILURE", 10⟩
            else if n = 1 then some ⟨"FAILURE", 5⟩ else none,
   some 2⟩

/-- C1 counterexample: with `now = 20`, `hours_ago = 10` (cutoff
`T = 10`), the history has build 2 with timestamp `10 = T` and build 1
with timestamp `5 < T`.  The claim says the walk visits all builds with
timestamp `≥ T` **plus exactly one boundary build with timestamp `< T`**;
the code (`while job_time > min_start_time`, strict) stops right after
build 2, visits only `[2]`, and never visits a build with timestamp
`< T`. -/
theorem C1_counterexample :
    fetchedBuilds (display_builds_for_job envC1cex 20 10 true 5).1 = [2] ∧
    envC1cex.buildInfo 2 = some ⟨"FAILURE", 10⟩ ∧
    envC1cex.buildInfo 1 = some ⟨"FAILURE", 5⟩ ∧
    ¬ ((5 : Int) ≥ 20 - 10) ∧ ((10 : Int) ≥ 20 - 10) := by
  exact ⟨by decide, rfl, rfl, by norm_num, by norm_num⟩

/-- C1 (amended): the walk continues only while the fetched build's own
timestamp is **strictly greater** than the cutoff `now - hours_ago`: for
every history in which the builds below the last completed build `b0`
are present, builds `b0 - i` for `i < j` have timestamps `> cutoff` and
build `b0 - j` is the first with timestamp `≤ cutoff`, the walk visits
exactly the builds with timestamp `> cutoff` plus that one boundary
build (timestamp `≤ cutoff`, boundary at exact equality included), the
boundary build is evaluated for inclusion before the walk stops (it
contributes a row exactly when `is_build_included` holds for it), and
then the walk stops. -/
theorem C1_walk_boundary (env : Env) (now hours_ago : Int) (inc : Bool)
    (cs : Catalog) (b0 : Int) (j : Nat) (info : Nat → BuildInfo)
    (fuel : Nat)
    (hcat : env.catalog = some cs) (hok : catalogOKb cs = true)
    (hcons : ∀ n, (env.console n).isSome)
    (hlast : env.lastCompleted = some b0)
    (hnow : 0 < hours_ago)
    (hinfo : ∀ i : Nat, i ≤ j →
        env.buildInfo (b0 - (i : Int)) = some (info i))
    (hts : ∀ i : Nat, i < j → now - hours_ago < (info i).timestamp)
    (hbd : (info j).timestamp ≤ now - hours_ago)
    (hfuel : j + 2 ≤ fuel) :
    fetchedBuilds (display_builds_for_job env now hours_ago inc fuel).1
        = (List.range (j + 1)).map (fun i : Nat => b0 - (i : Int)) ∧
    ∃ rows,
      (display_builds_for_job env now hours_ago inc fuel).2 = .ok rows ∧
      ((∃ r, r ∈ rows ∧ r.number = b0 - (j : Int)) ↔
        is_build_included (info j) (now - hours_ago) inc = true) := by
  have hw := walk_window env (now - hours_ago) inc cs hcat hok hcons j b0
    now fuel info (by omega) hinfo hts hbd hfuel
  simp only [display_builds_for_job, hlast]
  refine ⟨by simpa [fetchedBuilds] using hw.1, ?_⟩
  obtain ⟨rows, hrows, hall, hbdy⟩ := hw.2
  refine ⟨rows, by simpa using hrows, ?_, ?_⟩
  · rintro ⟨r, hr, hnum⟩
    obtain ⟨i, hi, hnum2, hinc⟩ := hall r hr
    rw [hnum] at hnum2
    have hij : i = j := by omega
    rw [← hij]
    exact hinc
  · intro hI
    obtain ⟨r, hr, hnum⟩ := hbdy hI
    exact ⟨r, hr, hnum⟩

/-- History for the C1 witness: builds 5 (`ts 30`), 4 (SUCCESS, `ts 25`)
and 3 (`ts 10`, exactly the cutoff) with `now = 40`, `hours_ago = 30`. -/
def envC1w : Env :=
  ⟨some [], fun _ => some [],
   fun n => if n = 5 then some ⟨"FAILURE", 30⟩
            else if n = 4 then some ⟨"SUCCESS", 25⟩
            else if n = 3 then some ⟨"FAILURE", 10⟩ else none,
   some 5⟩

def infoC1w : Nat → BuildInfo :=
  fun i => if i = 0 then ⟨"FAILURE", 30⟩
           else if i = 1 then ⟨"SUCCESS", 25⟩ else ⟨"FAILURE", 10⟩

theorem C1_witness :
    fetchedBuilds (display_builds_for_job envC1w 40 30 false 10).1
        = (List.range 3).map (fun i : Nat => 5 - (i : Int)) ∧
    ∃ rows,
      (display_builds_for_job envC1w 40 30 false 10).2 = .ok rows ∧
      ((∃ r, r ∈ rows ∧ r.number = 5 - ((2 : Nat) : Int)) ↔
        is_build_included (infoC1w 2) (40 - 30) false = true) :=
  C1_walk_boundary envC1w 40 30 false [] 5 2 infoC1w 10 rfl rfl
    (fun n => rfl) rfl (by norm_num) (by decide) (by decide) (by decide)
    (by norm_num)

/-! ### Claim C3 -/

/-- History for C3: build 2 in the window, build 1 deleted, build 0
present and in the window. -/
def envC3 : Env :=
  ⟨some [], fun _ => some [],
   fun n => if n = 2 then some ⟨"FAILURE", 18⟩
            else if n = 0 then some ⟨"FAILURE", 16⟩ else none,
   some 2⟩

/-- C3 counterexample: the claim says a missing build number is skipped
and the walk continues, still producing the report.  In the code
`get_build_info` has no exception handling: with build 1 missing the run
ends with the build-not-found error, the in-window build 0 is never
visited (the fetch list is `[2, 1]`), and no report is produced. -/
theorem C3_counterexample :
    (display_builds_for_job envC3 20 10 true 5).2
        = .error (.buildNotFound 1) ∧
    fetchedBuilds (display_builds_for_job envC3 20 10 true 5).1 = [2, 1] ∧
    envC3.buildInfo 0 = some ⟨"FAILURE", 16⟩ ∧
    ((16 : Int) ≥ 20 - 10) := by
  exact ⟨rfl, by decide, rfl, by norm_num⟩

/-- C3 (amended): a build-not-found failure when fetching metadata
**terminates** the walk: the exception propagates out of the loop, so
the walk visits exactly the builds down to and including the missing
number, no older build is visited, and the whole run ends in the error
(no report is rendered). -/
theorem C3_missing_build_aborts (env : Env) (now hours_ago : Int)
    (inc : Bool) (cs : Catalog) (b0 : Int) (k : Nat)
    (info : Nat → BuildInfo) (fuel : Nat)
    (hcat : env.catalog = some cs) (hok : catalogOKb cs = true)
    (hcons : ∀ n, (env.console n).isSome)
    (hlast : env.lastCompleted = some b0)
    (hnow : 0 < hours_ago)
    (hinfo : ∀ i : Nat, i < k →
        env.buildInfo (b0 - (i : Int)) = some (info i))
    (hts : ∀ i : Nat, i < k → now - hours_ago < (info i).timestamp)
    (hmiss : env.buildInfo (b0 - (k : Int)) = none)
    (hfuel : k + 1 ≤ fuel) :
    (display_builds_for_job env now hours_ago inc fuel).2
        = .error (.buildNotFound (b0 - (k : Int))) ∧
    fetchedBuilds (display_builds_for_job env now hours_ago inc fuel).1
        = (List.range (k + 1)).map (fun i : Nat => b0 - (i : Int)) := by
  have hw := walk_missing env (now - hours_ago) inc cs hcat hok hcons k b0
    now fuel info (by omega) hinfo hts hmiss hfuel
  simp only [display_builds_for_job, hlast]
  exact ⟨by simpa using hw.1, by simpa [fetchedBuilds] using hw.2⟩

def infoC3 : Nat → BuildInfo := fun _ => ⟨"FAILURE", 18⟩

theorem C3_witness :
    (display_builds_for_job envC3 20 10 true 5).2
        = .error (.buildNotFound (2 - ((1 : Nat) : Int))) ∧
    fetchedBuilds (display_builds_for_job envC3 20 10 true 5).1
        = (List.range 2).map (fun i : Nat => 2 - (i : Int)) :=
  C3_missing_build_aborts envC3 20 10 true [] 2 1 infoC3 5 rfl rfl
    (fun n => rfl) rfl (by norm_num) (by decide) (by decide) (by decide)
    (by norm_num)

/-! ### Claim C7 -/

/-- Environment with the catalog file missing and one in-window failed
build. -/
def envC7 : Env :=
  ⟨none, fun _ => some [],
   fun n => if n = 1 then some ⟨"FAILURE", 10⟩ else none, some 1⟩

/-- C7 counterexample: the claim says a missing catalog aborts the run
**before any remote build or log fetch**.  In the code `get_causes` is
only called from inside `search_for_cause`, after the console fetch: the
recorded run performs the job-info fetch, the build-metadata fetch and
the console fetch before the catalog read fails, as the event trace
shows. -/
theorem C7_counterexample :
    display_builds_for_job envC7 10 5 true 3
      = ([Event.fetchJobInfo, Event.fetchBuildInfo 1, Event.fetchConsole 1,
          Event.loadCatalog], .error .catalogMissing) := rfl

/-- C7 (amended): a missing or unparsable signature-catalog source is a
fatal error that ends the run with no report, but it is raised lazily at
the first classification of an included non-success build — after the
job metadata, that build's metadata and its console text have already
been fetched — not before any fetch. -/
theorem C7_catalog_error_lazy_fatal (env : Env) (now hours_ago : Int)
    (inc : Bool) (b0 : Int) (bi : BuildInfo) (out : Str) (fuel : Nat)
    (hcat : env.catalog = none)
    (hlast : env.lastCompleted = some b0)
    (hbi : env.buildInfo b0 = some bi)
    (hres : bi.result ≠ "SUCCESS")
    (hts : now - hours_ago ≤ bi.timestamp)
    (hnow : 0 < hours_ago)
    (hcons : env.console b0 = some out)
    (hfuel : 0 < fuel) :
    display_builds_for_job env now hours_ago inc fuel
      = ([Event.fetchJobInfo, Event.fetchBuildInfo b0,
          Event.fetchConsole b0, Event.loadCatalog],
         .error .catalogMissing) := by
  obtain ⟨f, rfl⟩ : ∃ f, fuel = f + 1 := ⟨fuel - 1, by omega⟩
  have hbeq : (bi.result == "SUCCESS") = false := beq_eq_false_iff_ne.mpr hres
  have hI : is_build_included bi (now - hours_ago) inc = true := by
    simp [is_build_included, hbeq, not_lt.mpr hts]
  have hg : get_build_fail_cause env bi b0
      = ([Event.fetchConsole b0, Event.loadCatalog],
         .error .catalogMissing) := by
    simp [get_build_fail_cause, hbeq, search_for_cause, hcons, hcat]
  have hlt : now - hours_ago < now := by omega
  simp only [display_builds_for_job, hlast]
  simp [walkLoop, hlt, get_build_info, hbi, hI, hg]

theorem C7_witness :
    display_builds_for_job envC7 10 5 true 3
      = ([Event.fetchJobInfo, Event.fetchBuildInfo 1, Event.fetchConsole 1,
          Event.loadCatalog], .error .catalogMissing) :=
  C7_catalog_error_lazy_fatal envC7 10 5 true 1 ⟨"FAILURE", 10⟩ [] 3 rfl
    rfl rfl (by decide) (by norm_num) (by norm_num) rfl (by norm_num)

/-! ### Claim C8 -/

/-- A catalog whose only cause carries the invalid regular expression
`(` (unbalanced parenthesis: `re.error` in Python, unparsable here). -/
def cdC8 : CauseData := ⟨["(".toList], [], none⟩

def csC8 : Catalog := [("sig", cdC8)]

def envC8 : Env := ⟨some csC8, fun _ => some [], fun _ => none, none⟩

/-- C8 counterexample: the claim says a malformed regex fails at catalog
load and never first raises during classification.  In the code
`get_causes` only parses the YAML and validates nothing, so loading the
catalog with the invalid pattern `(` succeeds, and the error is raised
inside `search_for_cause`, when `re.search` compiles the pattern during
classification. -/
theorem C8_counterexample :
    get_causes envC8 = .ok csC8 ∧
    search_for_cause envC8 1
      = ([Event.fetchConsole 1, Event.loadCatalog],
         .error (.badRegex "(".toList)) := ⟨rfl, rfl⟩

/-- C8 (amended): a catalog entry with an invalid regular expression is
**not** detected at load time: `get_causes` returns the catalog
unvalidated, and the malformed pattern first raises inside
`search_for_cause` during classification, on every run that reaches
it. -/
theorem C8_bad_regex_raises_at_classify (env : Env) (cs : Catalog)
    (n : Int) (out : Str) (nm : String) (cd : CauseData) (p : Str)
    (hcat : env.catalog = some cs)
    (hcons : env.console n = some out)
    (hmem : (nm, cd) ∈ cs) (hp : p ∈ cd.re)
    (hbad : parseRegex p = none) :
    get_causes env = .ok cs ∧
    ∃ q, parseRegex q = none ∧
      search_for_cause env n
        = ([Event.fetchConsole n, Event.loadCatalog],
           .error (.badRegex q)) := by
  refine ⟨by simp [get_causes, hcat], ?_⟩
  obtain ⟨q, hqn, hcol⟩ := collect_error_of out hmem hp hbad
  exact ⟨q, hqn, by simp [search_for_cause, hcons, hcat, hcol, Except.map]⟩

theorem C8_witness :
    get_causes envC8 = .ok csC8 ∧
    ∃ q, parseRegex q = none ∧
      search_for_cause envC8 1
        = ([Event.fetchConsole 1, Event.loadCatalog],
           .error (.badRegex q)) :=
  C8_bad_regex_raises_at_classify envC8 csC8 1 [] "sig" cdC8 "(".toList
    rfl rfl (by decide) (by decide) (by decide)

/-! ### Claim C9 -/

/-- Environment where every console fetch fails but the builds and the
catalog are fine. -/
def envC9 : Env :=
  ⟨some [], fun _ => none,
   fun n => if n = 1 then some ⟨"FAILURE", 10⟩ else none, some 1⟩

/-- C9 counterexample: the claim says a failed console fetch still leaves
the build in the report with an empty classification and never aborts
the run.  In the code `search_for_cause` fetches the console with no
exception handling: the fetch failure propagates, the run ends in the
log-fetch error and no report (no rows) is produced at all. -/
theorem C9_counterexample :
    display_builds_for_job envC9 10 5 true 3
      = ([Event.fetchJobInfo, Event.fetchBuildInfo 1, Event.fetchConsole 1],
         .error (.logFetch 1)) := rfl

/-- C9 (amended): when the console text of an included non-success build
cannot be fetched, the exception is not caught anywhere: the run aborts
with the log-fetch error, the build gets no row and no report is
produced. -/
theorem C9_log_fetch_error_aborts (env : Env) (now hours_ago : Int)
    (inc : Bool) (b0 : Int) (bi : BuildInfo) (fuel : Nat)
    (hlast : env.lastCompleted = some b0)
    (hbi : env.buildInfo b0 = some bi)
    (hres : bi.result ≠ "SUCCESS")
    (hts : now - hours_ago ≤ bi.timestamp)
    (hnow : 0 < hours_ago)
    (hcons : env.console b0 = none)
    (hfuel : 0 < fuel) :
    display_builds_for_job env now hours_ago inc fuel
      = ([Event.fetchJobInfo, Event.fetchBuildInfo b0,
          Event.fetchConsole b0], .error (.logFetch b0)) := by
  obtain ⟨f, rfl⟩ : ∃ f, fuel = f + 1 := ⟨fuel - 1, by omega⟩
  have hbeq : (bi.result == "SUCCESS") = false := beq_eq_false_iff_ne.mpr hres
  have hI : is_build_included bi (now - hours_ago) inc = true := by
    simp [is_build_included, hbeq, not_lt.mpr hts]
  have hg : get_build_fail_cause env bi b0
      = ([Event.fetchConsole b0], .error (.logFetch b0)) := by
    simp [get_build_fail_cause, hbeq, search_for_cause, hcons]
  have hlt : now - hours_ago < now := by omega
  simp only [display_builds_for_job, hlast]
  simp [walkLoop, hlt, get_build_info, hbi, hI, hg]

theorem C9_witness :
    display_builds_for_job envC9 10 5 true 3
      = ([Event.fetchJobInfo, Event.fetchBuildInfo 1, Event.fetchConsole 1],
         .error (.logFetch 1)) :=
  C9_log_fetch_error_aborts envC9 10 5 true 1 ⟨"FAILURE", 10⟩ 3 rfl rfl
    (by decide) (by norm_num) (by norm_num) rfl (by norm_num)

end JenkinsReport
